import Mathlib

/-! # Futures position-analysis pipeline: a shallow embedding

Shallow embedding of the core of `futures_analyzer.py` and
`performance_optimizer.py` (futures-position-analysis).

Modelling conventions:
* Numeric cell values of a position table are `Option ℚ`: `none` stands for a
  missing / non-numeric (NaN) cell, matching the pandas `notna` checks; column
  sums skip missing cells exactly as `pandas.Series.sum` does.
* Python floats are modelled by `ℚ`.  The one place where IEEE rounding could
  matter, `int(len(sorted_seats) * 0.4)`, agrees with `⌊2n/5⌋` for every list
  length `n` (the double closest to 0.4 lies above 2/5, so `n * 0.4` never
  rounds below an attained integer); we embed it as Nat division `2 * n / 5`.
* Contract identifiers and symbols are `List Char` (a Python `str` is a
  sequence of characters); `Char.isAlpha`/`Char.toUpper` stand for the Python
  `str.isalpha`/`str.upper` (ASCII fragment, which covers the claims).
* Strategy return values keep the literal direction strings of the source:
  "看多" (long), "看空" (short), "中性" (neutral), "错误" (error).  The
  free-text rationale strings are not modelled; no claim depends on them.
* The Python `try/except` wrappers make each strategy total; the embedding is
  total by construction, with the `except` branch reached exactly when a
  required dict field is absent/unconvertible (`none`).
-/

namespace Futures

/-- Canonical position record: one row of a per-contract ranking table
(`PositionRecord` of the spec; the canonical columns of
`process_position_data`). -/
structure PositionRecord where
  long_party_name : String
  long_open_interest : Option ℚ
  long_open_interest_chg : Option ℚ
  short_party_name : String
  short_open_interest : Option ℚ
  short_open_interest_chg : Option ℚ
  vol : Option ℚ
deriving DecidableEq

/-- A raw contract table as loaded from a persisted artifact: its column
names together with its rows (rows are already in canonical field order;
only the column-name list varies by exchange). -/
structure DataFrame where
  columns : List String
  rows : List PositionRecord
deriving DecidableEq

/-- The seven required canonical columns of `process_position_data`. -/
def required_columns : List String :=
  ["long_party_name", "long_open_interest", "long_open_interest_chg",
   "short_party_name", "short_open_interest", "short_open_interest_chg", "vol"]

/-- The CZCE column renaming of `_standardize_columns`. -/
def czce_rename (c : String) : String :=
  if c = "g_party_n" then "long_party_name"
  else if c = "open_inten" then "long_open_interest"
  else if c = "inten_intert" then "long_open_interest_chg"
  else if c = "t_party_n" then "short_party_name"
  else if c = "open_inten.1" then "short_open_interest"
  else if c = "inten_intert.1" then "short_open_interest_chg"
  else c

/-- `_standardize_columns`: rename CZCE-style columns when present. -/
def standardize_columns (df : DataFrame) : DataFrame :=
  if "g_party_n" ∈ df.columns then
    { df with columns := df.columns.map czce_rename }
  else df

/-- Column sum skipping missing cells (pandas `Series.sum`). -/
def osum (f : PositionRecord → Option ℚ) (rows : List PositionRecord) : ℚ :=
  (rows.map (fun r => (f r).getD 0)).sum

/-- Result dict of `process_position_data`. -/
structure ProcessedData where
  total_long : ℚ
  total_short : ℚ
  total_long_chg : ℚ
  total_short_chg : ℚ
  raw_data : List PositionRecord
deriving DecidableEq

/-- `StrategyAnalyzer.process_position_data`: standardize columns, require the
seven canonical columns (otherwise `None`), and compute the four totals. -/
def process_position_data (df : DataFrame) : Option ProcessedData :=
  let df := standardize_columns df
  if required_columns.all (fun c => c ∈ df.columns) then
    some { total_long := osum (fun r => r.long_open_interest) df.rows,
           total_short := osum (fun r => r.short_open_interest) df.rows,
           total_long_chg := osum (fun r => r.long_open_interest_chg) df.rows,
           total_short_chg := osum (fun r => r.short_open_interest_chg) df.rows,
           raw_data := df.rows }
  else none

/-- The dict handed to the three strategy functions.  A `none` field models a
value the strategy body cannot use (missing key / unconvertible value), i.e.
the path on which the Python `except` clause fires. -/
structure AnalysisData where
  total_long : Option ℚ
  total_short : Option ℚ
  total_long_chg : Option ℚ
  total_short_chg : Option ℚ
  raw_data : Option (List PositionRecord)
deriving DecidableEq

/-- `StrategyAnalyzer.analyze_power_change` (direction, strength). -/
def analyze_power_change (data : AnalysisData) : String × ℚ :=
  match data.total_long_chg, data.total_short_chg with
  | some long_chg, some short_chg =>
    let strength := |long_chg| + |short_chg|
    if 0 < long_chg ∧ short_chg < 0 then ("看多", strength)
    else if long_chg < 0 ∧ 0 < short_chg then ("看空", strength)
    else ("中性", 0)
  | _, _ => ("错误", 0)

/-- The spider-web validity filter: volume present and `> 0`, both
open-interest fields present. -/
def is_valid_seat (r : PositionRecord) : Bool :=
  match r.vol, r.long_open_interest, r.short_open_interest with
  | some v, some _, some _ => decide (0 < v)
  | _, _, _ => false

/-- The per-record informedness indicator `stat` of `analyze_spider_web`. -/
def stat (r : PositionRecord) : ℚ :=
  (r.long_open_interest.getD 0 + r.short_open_interest.getD 0) / r.vol.getD 0

/-- Descending informedness order used to sort the qualifying records. -/
def statGE (a b : PositionRecord) : Prop := stat b ≤ stat a

instance : DecidableRel statGE :=
  fun a b => inferInstanceAs (Decidable (stat b ≤ stat a))

instance : IsTotal PositionRecord statGE :=
  ⟨fun a b => le_total (stat b) (stat a)⟩

instance : IsTrans PositionRecord statGE :=
  ⟨fun _ _ _ hab hbc => le_trans hbc hab⟩

/-- The informed-group cutoff `max(2, int(len * 0.4))` of
`analyze_spider_web` (see the header note on `int(n * 0.4) = ⌊2n/5⌋`). -/
def cutoff_index (n : ℕ) : ℕ := max 2 (2 * n / 5)

/-- The informed / uninformed split of `analyze_spider_web`: sort the
qualifying records by `stat` descending and cut at `cutoff_index`. -/
def spider_split (valid : List PositionRecord) : List PositionRecord × List PositionRecord :=
  let sorted := valid.insertionSort statGE
  let k := cutoff_index valid.length
  (sorted.take k, sorted.drop k)

/-- Net-position ratio `(long - short) / (long + short)` of one record. -/
def side_ratio (r : PositionRecord) : ℚ :=
  (r.long_open_interest.getD 0 - r.short_open_interest.getD 0) /
    (r.long_open_interest.getD 0 + r.short_open_interest.getD 0)

/-- Ratios of the records of one group with positive total position. -/
def group_values (g : List PositionRecord) : List ℚ :=
  (g.filter (fun r =>
    decide (0 < r.long_open_interest.getD 0 + r.short_open_interest.getD 0))).map side_ratio

/-- `numpy.mean` on a list of rationals. -/
def mean (l : List ℚ) : ℚ := l.sum / l.length

/-- `StrategyAnalyzer.analyze_spider_web` (direction, strength). -/
def analyze_spider_web (data : AnalysisData) : String × ℚ :=
  match data.raw_data with
  | none => ("错误", 0)
  | some df =>
    let valid := df.filter is_valid_seat
    if valid.length < 5 then ("中性", 0)
    else
      let p := spider_split valid
      let its_values := group_values p.1
      let uts_values := group_values p.2
      if its_values = [] ∨ uts_values = [] then ("中性", 0)
      else
        let msd := mean its_values - mean uts_values
        if 1 / 20 < msd then ("看多", |msd|)
        else if msd < -(1 / 20) then ("看空", |msd|)
        else ("中性", |msd|)

/-- Per watched seat aggregate of `analyze_retail_reverse`. -/
structure SeatStat where
  seat_name : String
  long_chg : ℚ
  short_chg : ℚ
  long_pos : ℚ
  short_pos : ℚ
deriving DecidableEq

/-- Key list of a Python dict built by inserting each list element once:
first occurrence order, duplicates dropped. -/
def uniqueKeys (l : List String) : List String :=
  l.foldl (fun acc x => if x ∈ acc then acc else acc ++ [x]) []

/-- Aggregate one watched seat over all rows (both sides), skipping
missing cells, as in the `seat_stats` loop of `analyze_retail_reverse`. -/
def seat_stat (df : List PositionRecord) (seat : String) : SeatStat :=
  { seat_name := seat,
    long_chg := (df.map (fun r =>
      if r.long_party_name = seat then r.long_open_interest_chg.getD 0 else 0)).sum,
    short_chg := (df.map (fun r =>
      if r.short_party_name = seat then r.short_open_interest_chg.getD 0 else 0)).sum,
    long_pos := (df.map (fun r =>
      if r.long_party_name = seat then r.long_open_interest.getD 0 else 0)).sum,
    short_pos := (df.map (fun r =>
      if r.short_party_name = seat then r.short_open_interest.getD 0 else 0)).sum }

/-- The watched seats kept by `analyze_retail_reverse`: aggregated long or
short position `> 0`. -/
def active_seats (retail_seats : List String) (df : List PositionRecord) : List SeatStat :=
  ((uniqueKeys retail_seats).map (seat_stat df)).filter
    (fun s => decide (0 < s.long_pos) || decide (0 < s.short_pos))

/-- Per-seat long-signal condition: short side added, long side did not. -/
def long_condition (s : SeatStat) : Bool :=
  decide (0 < s.short_chg) && decide (s.long_chg ≤ 0)

/-- Per-seat short-signal condition: long side added, short side did not. -/
def short_condition (s : SeatStat) : Bool :=
  decide (0 < s.long_chg) && decide (s.short_chg ≤ 0)

/-- `StrategyAnalyzer.analyze_retail_reverse`
(direction, strength, seat details). -/
def analyze_retail_reverse (retail_seats : List String) (data : AnalysisData) :
    String × ℚ × List SeatStat :=
  match data.raw_data with
  | none => ("错误", 0, [])
  | some df =>
    let active := active_seats retail_seats df
    if active = [] then ("中性", 0, [])
    else
      let total_position :=
        osum (fun r => r.long_open_interest) df + osum (fun r => r.short_open_interest) df
      let retail_position := (active.map (fun s => s.long_pos + s.short_pos)).sum
      let position_ratio := if 0 < total_position then retail_position / total_position else 0
      if active.all long_condition then ("看多", position_ratio, active)
      else if active.all short_condition then ("看空", position_ratio, active)
      else ("中性", 0, active)

/-! ## Term structure (`TermStructureAnalyzer`) -/

/-- The strict-decrease check of `_determine_structure_strict`
(every adjacent pair strictly decreasing). -/
def strictly_dec : List ℚ → Bool
  | [] => true
  | [_] => true
  | a :: b :: t => decide (b < a) && strictly_dec (b :: t)

/-- The strict-increase check of `_determine_structure_strict`. -/
def strictly_inc : List ℚ → Bool
  | [] => true
  | [_] => true
  | a :: b :: t => decide (a < b) && strictly_inc (b :: t)

/-- `TermStructureAnalyzer._determine_structure_strict`. -/
def determine_structure_strict (prices : List ℚ) : String :=
  if prices.length < 2 then "flat"
  else if strictly_dec prices then "back"
  else if strictly_inc prices then "contango"
  else "flat"

/-- Value of an ASCII digit character. -/
def digitVal (c : Char) : ℕ := c.toNat - 48

/-- `extract_month_info` of `_sort_contracts_by_month`: the regex
`(\d{4})$` matches iff the last four characters are digits; then
`YYMM` is mapped to `(year < 50 ? 2000+year : 1900+year) * 100 + month`,
otherwise the sentinel key `999999` is used. -/
def extract_month_info (symbol : List Char) : ℕ :=
  match symbol.reverse with
  | d :: c :: b :: a :: _ =>
    if a.isDigit && b.isDigit && c.isDigit && d.isDigit then
      let yy := 10 * digitVal a + digitVal b
      let mm := 10 * digitVal c + digitVal d
      (if yy < 50 then yy + 2000 else yy + 1900) * 100 + mm
    else 999999
  | _ => 999999

/-- Whether the symbol ends in four digit characters (i.e. the regex
`(\d{4})$` of `extract_month_info` matches). -/
def has_trailing_yymm (symbol : List Char) : Bool :=
  match symbol.reverse with
  | d :: c :: b :: a :: _ => a.isDigit && b.isDigit && c.isDigit && d.isDigit
  | _ => false

/-- One row of the merged price table (`PriceQuote`): the fields
`analyze_term_structure` uses. -/
structure PriceRow where
  symbol : List Char
  variety : String
  close : Option ℚ
deriving DecidableEq

/-- Sort key order of `_sort_contracts_by_month`. -/
def monthLE (a b : PriceRow) : Prop :=
  extract_month_info a.symbol ≤ extract_month_info b.symbol

instance : DecidableRel monthLE :=
  fun a b =>
    inferInstanceAs (Decidable (extract_month_info a.symbol ≤ extract_month_info b.symbol))

instance : IsTotal PriceRow monthLE :=
  ⟨fun a b => Nat.le_total (extract_month_info a.symbol) (extract_month_info b.symbol)⟩

instance : IsTrans PriceRow monthLE :=
  ⟨fun _ _ _ hab hbc => Nat.le_trans hab hbc⟩

/-- `TermStructureAnalyzer._sort_contracts_by_month`: stable sort of the
variety's rows by the parsed month key. -/
def sort_contracts_by_month (rows : List PriceRow) : List PriceRow :=
  rows.insertionSort monthLE

/-- Validity filter of `analyze_term_structure`:
close present and `> 0`. -/
def valid_price (r : PriceRow) : Bool :=
  match r.close with
  | some c => decide (0 < c)
  | none => false

/-- `TermStructureAnalyzer.analyze_term_structure`: group by variety (first
occurrence order, as `pandas.unique`), filter valid closes, require at least
two points, sort by contract month, classify. -/
def analyze_term_structure (price_data : List PriceRow) :
    List (String × String × List (List Char) × List ℚ) :=
  (uniqueKeys (price_data.map (fun r => r.variety))).filterMap (fun v =>
    let vd := (price_data.filter (fun r => r.variety = v)).filter valid_price
    if vd.length < 2 then none
    else
      let sorted := sort_contracts_by_month vd
      let closes := sorted.map (fun r => r.close.getD 0)
      some (v, determine_structure_strict closes, sorted.map (fun r => r.symbol), closes))

/-! ## Resonance (`FuturesAnalysisEngine._calculate_signal_resonance`) -/

/-- One entry of a per-strategy long/short signal list. -/
structure SignalRec where
  contract : List Char
  strength : ℚ
deriving DecidableEq

/-- `contract.split('_')[-1]`: the text after the last underscore
(the whole string when it has no underscore). -/
def last_segment (cs : List Char) : List Char :=
  cs.foldl (fun acc c => if c = '_' then [] else acc ++ [c]) []

/-- `extract_symbol` of `_calculate_signal_resonance`: take the part after
the last underscore, keep alphabetic characters, uppercase; fall back to the
full identifier when no alphabetic character remains. -/
def extract_symbol (contract : List Char) : List Char :=
  let symbol_part := if contract.contains '_' then last_segment contract else contract
  let letters := (symbol_part.filter Char.isAlpha).map Char.toUpper
  if letters = [] then contract else letters

/-- Per-symbol tally of `_calculate_signal_resonance`. -/
structure SymbolInfo where
  count : ℕ
  strategies : List String
  contracts : List (List Char)
deriving DecidableEq

/-- Record one top-10 signal of strategy `strategy_name` in the tally
(insertion-ordered association list, like the Python dict). -/
def bump (strategy_name : String) (m : List (List Char × SymbolInfo)) (sig : SignalRec) :
    List (List Char × SymbolInfo) :=
  let symbol := extract_symbol sig.contract
  if m.any (fun p => p.1 = symbol) then
    m.map (fun p =>
      if p.1 = symbol then
        (p.1, { count := p.2.count + 1,
                strategies := p.2.strategies ++ [strategy_name],
                contracts := p.2.contracts ++ [sig.contract] })
      else p)
  else m ++ [(symbol, { count := 1, strategies := [strategy_name], contracts := [sig.contract] })]

/-- `FuturesAnalysisEngine._calculate_signal_resonance`: per direction, tally
at most the first 10 signals of each strategy by extracted symbol, then keep
the symbols whose tally `count` is at least 2. -/
def calculate_signal_resonance
    (strategy_signals : List (String × List SignalRec × List SignalRec)) :
    List (List Char × SymbolInfo) × List (List Char × SymbolInfo) :=
  let long_count := strategy_signals.foldl
    (fun m s => (s.2.1.take 10).foldl (bump s.1) m) []
  let short_count := strategy_signals.foldl
    (fun m s => (s.2.2.take 10).foldl (bump s.1) m) []
  (long_count.filter (fun p => decide (2 ≤ p.2.count)),
   short_count.filter (fun p => decide (2 ≤ p.2.count)))

/-! ## Cache (`PerformanceOptimizer`)

The cache directory is modelled as an association list from key to
(payload, write timestamp); time is `ℚ` with the ttl in the same unit.
`save_to_cache` overwrites the single file of its key, so the stale entry
is dropped; `load_from_cache` returns the per-key state unchanged, since
the Python body only reads. -/

/-- One cached file: payload and file-modification time. -/
structure CacheEntry (V : Type) where
  value : V
  writeTime : ℚ
deriving DecidableEq

/-- The cache directory contents. -/
structure CacheState (V : Type) where
  entries : List (String × CacheEntry V)
deriving DecidableEq

/-- `PerformanceOptimizer.save_to_cache` (put): write the key's file,
stamped with the current time. -/
def save_to_cache {V : Type} (s : CacheState V) (now : ℚ) (key : String) (v : V) :
    CacheState V :=
  ⟨(key, ⟨v, now⟩) :: s.entries.filter (fun p => decide (p.1 ≠ key))⟩

/-- `PerformanceOptimizer.is_cache_valid`: the entry exists and
`now - file_time < max_age`. -/
def is_cache_valid {V : Type} (s : CacheState V) (now : ℚ) (key : String) (max_age : ℚ) :
    Bool :=
  match s.entries.lookup key with
  | some e => decide (now - e.writeTime < max_age)
  | none => false

/-- `PerformanceOptimizer.load_from_cache` (get): the payload when the entry
is valid, `none` otherwise; the state is returned untouched (the body only
reads the file). -/
def load_from_cache {V : Type} (s : CacheState V) (now : ℚ) (key : String) (max_age : ℚ) :
    Option V × CacheState V :=
  (if is_cache_valid s now key max_age then (s.entries.lookup key).map (fun e => e.value)
   else none, s)

/-- `PerformanceOptimizer.clear_old_cache` (explicit eviction): remove the
files whose modification time is before `now - max_age`. -/
def clear_old_cache {V : Type} (s : CacheState V) (now : ℚ) (max_age : ℚ) : CacheState V :=
  ⟨s.entries.filter (fun p => !(decide (p.2.writeTime < now - max_age)))⟩

/-! ## Acquisition and orchestration (`FuturesDataManager`,
`FuturesAnalysisEngine`) -/

/-- Outcome of one exchange source inside `fetch_position_data`'s loop:
either the fetched named-table dataset (`[]` is an empty, falsy dict), or an
exception somewhere in the fetch/persist body (caught by the per-source
`except`, which `continue`s with the next source). -/
inductive SourceOutcome (D : Type) where
  | ok (data : List D)
  | exn
deriving DecidableEq

/-- A source counts as successful iff it produced a non-empty dataset and
persisting it did not raise. -/
def source_success {D : Type} : SourceOutcome D → Bool
  | .ok data => !data.isEmpty
  | .exn => false

/-- `FuturesDataManager.fetch_position_data` as (success count, number of
sources attempted): the loop visits every configured source, catching each
failure. The Python function returns `success_count > 0`. -/
def fetch_position_data {D : Type} (sources : List (SourceOutcome D)) : ℕ × ℕ :=
  sources.foldl (fun acc s => (acc.1 + if source_success s then 1 else 0, acc.2 + 1)) (0, 0)

/-- One strategy's entry in a contract's results. -/
structure StrategyOut where
  signal : String
  strength : ℚ
deriving DecidableEq

/-- Per-contract output of `_analyze_positions`. -/
structure ContractOutput where
  strategies : List (String × StrategyOut)
  seat_details : List SeatStat
  summary : ProcessedData
deriving DecidableEq

/-- Wrap processed totals as the strategy-input dict. -/
def to_analysis_data (pd : ProcessedData) : AnalysisData :=
  { total_long := some pd.total_long, total_short := some pd.total_short,
    total_long_chg := some pd.total_long_chg, total_short_chg := some pd.total_short_chg,
    raw_data := some pd.raw_data }

/-- The three strategy display names, in evaluation order. -/
def strategy_names : List String :=
  ["多空力量变化策略", "蜘蛛网策略", "家人席位反向操作策略"]

/-- `FuturesAnalysisEngine._analyze_positions`: per contract, process the
table (skipping the contract silently when processing yields nothing), then
evaluate the three strategies. -/
def analyze_positions (retail_seats : List String)
    (position_data : List (List Char × DataFrame)) : List (List Char × ContractOutput) :=
  position_data.filterMap (fun cd =>
    match process_position_data cd.2 with
    | none => none
    | some pd =>
      let d := to_analysis_data pd
      let p := analyze_power_change d
      let s := analyze_spider_web d
      let r := analyze_retail_reverse retail_seats d
      some (cd.1, { strategies := [("多空力量变化策略", ⟨p.1, p.2⟩),
                                  ("蜘蛛网策略", ⟨s.1, s.2⟩),
                                  ("家人席位反向操作策略", ⟨r.1, r.2.1⟩)],
                    seat_details := r.2.2,
                    summary := pd }))

/-- Signals of one strategy with the given direction, over all contracts. -/
def signals_of (position_results : List (List Char × ContractOutput))
    (strategy_name direction : String) : List SignalRec :=
  position_results.filterMap (fun cr =>
    match cr.2.strategies.lookup strategy_name with
    | some so => if so.signal = direction then some ⟨cr.1, so.strength⟩ else none
    | none => none)

/-- Strength-descending order of `_generate_summary`'s signal sort. -/
def strengthGE (a b : SignalRec) : Prop := b.strength ≤ a.strength

instance : DecidableRel strengthGE :=
  fun a b => inferInstanceAs (Decidable (b.strength ≤ a.strength))

instance : IsTotal SignalRec strengthGE :=
  ⟨fun a b => le_total b.strength a.strength⟩

instance : IsTrans SignalRec strengthGE :=
  ⟨fun _ _ _ hab hbc => le_trans hbc hab⟩

/-- The per-strategy sorted long/short signal lists of `_generate_summary`. -/
def generate_strategy_signals (position_results : List (List Char × ContractOutput)) :
    List (String × List SignalRec × List SignalRec) :=
  strategy_names.map (fun n =>
    (n, (signals_of position_results n "看多").insertionSort strengthGE,
        (signals_of position_results n "看空").insertionSort strengthGE))

/-- The summary block of `_generate_summary`. -/
structure Summary where
  strategy_signals : List (String × List SignalRec × List SignalRec)
  resonance_long : List (List Char × SymbolInfo)
  resonance_short : List (List Char × SymbolInfo)
  total_contracts : ℕ
  total_long_signals : ℕ
  total_short_signals : ℕ
deriving DecidableEq

/-- `FuturesAnalysisEngine._generate_summary`. -/
def generate_summary (position_results : List (List Char × ContractOutput)) : Summary :=
  let ss := generate_strategy_signals position_results
  let res := calculate_signal_resonance ss
  { strategy_signals := ss,
    resonance_long := res.1,
    resonance_short := res.2,
    total_contracts := position_results.length,
    total_long_signals := (ss.map (fun s => s.2.1.length)).sum,
    total_short_signals := (ss.map (fun s => s.2.2.length)).sum }

/-- Results dict of `FuturesAnalysisEngine.full_analysis`. -/
structure AnalysisResults where
  position_analysis : List (List Char × ContractOutput)
  term_structure : List (String × String × List (List Char) × List ℚ)
  summary : Summary
deriving DecidableEq

/-- `FuturesAnalysisEngine.full_analysis`: abort with no result exactly when
position acquisition reports no successful source; otherwise run the
remaining stages on whatever data is available (an empty price table skips
the term-structure stage). -/
def full_analysis {D : Type} (retail_seats : List String)
    (sources : List (SourceOutcome D)) (position_data : List (List Char × DataFrame))
    (price_data : List PriceRow) : Option AnalysisResults :=
  if (fetch_position_data sources).1 = 0 then none
  else
    let position_results := analyze_positions retail_seats position_data
    some { position_analysis := position_results,
           term_structure := if price_data = [] then [] else analyze_term_structure price_data,
           summary := generate_summary position_results }

/-- Concrete data with Δlong = 500 and Δshort = -300. -/
def power_example : AnalysisData :=
  { total_long := none, total_short := none,
    total_long_chg := some 500, total_short_chg := some (-300), raw_data := none }

/-- A snapshot with exactly six records qualifying for the spider-web
strategy. -/
def c2_df : List PositionRecord :=
  [⟨"L1", some 6, some 0, "S1", some 1, some 0, some 1⟩,
   ⟨"L2", some 5, some 0, "S2", some 1, some 0, some 1⟩,
   ⟨"L3", some 4, some 0, "S3", some 1, some 0, some 1⟩,
   ⟨"L4", some 3, some 0, "S4", some 1, some 0, some 1⟩,
   ⟨"L5", some 2, some 0, "S5", some 1, some 0, some 1⟩,
   ⟨"L6", some 1, some 0, "S6", some 1, some 0, some 1⟩]

/-- A table whose columns lack `vol`. -/
def c10_df : DataFrame :=
  { columns := ["long_party_name", "long_open_interest", "long_open_interest_chg",
                "short_party_name", "short_open_interest", "short_open_interest_chg"],
    rows := [] }

/-- Two top-10 long signals of the SAME strategy, on two contracts of the
same variety RB. -/
def c1_signals : List (String × List SignalRec × List SignalRec) :=
  [("多空力量变化策略",
    [⟨"DCE_RB2401".toList, 5⟩, ⟨"DCE_RB2405".toList, 3⟩], [])]

/-- Sum of long+short over all records of the snapshot (the denominator
`total_position` of `analyze_retail_reverse`). -/
def snapshot_position_sum (df : List PositionRecord) : ℚ :=
  osum (fun r => r.long_open_interest) df + osum (fun r => r.short_open_interest) df

/-- Sum of long+short aggregated positions over ALL watched seats. -/
def watched_position_sum (ws : List String) (df : List PositionRecord) : ℚ :=
  (((uniqueKeys ws).map (seat_stat df)).map (fun s => s.long_pos + s.short_pos)).sum

/-- Snapshot realizing the spec example: watched seat A has Δshort=+200,
Δlong=0; watched seat B has Δshort=+150, Δlong=-50; both hold positions. -/
def c5_df : List PositionRecord :=
  [⟨"X", some 500, some 0, "A", some 300, some 200, some 10⟩,
   ⟨"A", some 0, some 0, "B", some 200, some 150, some 10⟩,
   ⟨"B", some 100, some (-50), "Y", some 400, some 0, some 10⟩]

/-- A strategy-input dict with every field absent. -/
def c5_blank : AnalysisData := ⟨none, none, none, none, none⟩

theorem digitVal_le_nine {c : Char} (h : c.isDigit = true) : digitVal c ≤ 9 := by
  simp [Char.isDigit] at h
  have : c.val.toNat ≤ 57 := by simpa using UInt32.le_def.mp h.2
  simp [digitVal, Char.toNat]
  omega

theorem extract_parsable (front : List Char) (a b c d : Char)
    (ha : a.isDigit = true) (hb : b.isDigit = true)
    (hc : c.isDigit = true) (hd : d.isDigit = true) :
    extract_month_info (front ++ [a, b, c, d]) =
      (if 10 * digitVal a + digitVal b < 50
       then 10 * digitVal a + digitVal b + 2000
       else 10 * digitVal a + digitVal b + 1900) * 100 + (10 * digitVal c + digitVal d) := by
  have hrev : (front ++ [a, b, c, d]).reverse = d :: c :: b :: a :: front.reverse := by
    simp
  rw [extract_month_info, hrev]
  simp [ha, hb, hc, hd]


theorem extract_unparsable {t : List Char} (h : has_trailing_yymm t = false) :
    extract_month_info t = 999999 := by
  rw [extract_month_info]
  rw [has_trailing_yymm] at h
  rcases hl : t.reverse with _ | ⟨x, _ | ⟨y, _ | ⟨z, _ | ⟨w, rest⟩⟩⟩⟩ <;> simp_all

/-- Claim C7: contracts are ordered by the key parsed from the trailing
4 digits of the symbol read as YYMM (yy < 50 maps to 2000+yy, otherwise
1900+yy; key = year*100 + month); a symbol without four trailing digits gets
the key 999999, strictly greater than every parsable key, so it sorts after
all parsable symbols; the sort is by this key (sorted output, a permutation
of the input). -/
theorem C7_contract_month_order (front : List Char) (a b c d : Char)
    (ha : a.isDigit = true) (hb : b.isDigit = true)
    (hc : c.isDigit = true) (hd : d.isDigit = true)
    (t : List Char) (ht : has_trailing_yymm t = false) (rows : List PriceRow) :
    extract_month_info (front ++ [a, b, c, d]) =
      (if 10 * digitVal a + digitVal b < 50
       then 10 * digitVal a + digitVal b + 2000
       else 10 * digitVal a + digitVal b + 1900) * 100 + (10 * digitVal c + digitVal d) ∧
    extract_month_info t = 999999 ∧
    extract_month_info (front ++ [a, b, c, d]) < extract_month_info t ∧
    (sort_contracts_by_month rows).Sorted monthLE ∧
    (sort_contracts_by_month rows).Perm rows := by
  have h1 := extract_parsable front a b c d ha hb hc hd
  have h2 := extract_unparsable ht
  refine ⟨h1, h2, ?_, List.sorted_insertionSort monthLE rows,
    List.perm_insertionSort monthLE rows⟩
  rw [h1, h2]
  have hva := digitVal_le_nine ha
  have hvb := digitVal_le_nine hb
  have hvc := digitVal_le_nine hc
  have hvd := digitVal_le_nine hd
  split <;> omega

/-- Witness for C7 at the symbol RB2401 and the unparsable symbol AB. -/
theorem C7_contract_month_order_witness :
    (( '2' : Char).isDigit = true ∧ has_trailing_yymm [ 'A', 'B' ] = false) ∧
    extract_month_info ([ 'R', 'B' ] ++ [ '2', '4', '0', '1' ]) =
      (if 10 * digitVal '2' + digitVal '4' < 50
       then 10 * digitVal '2' + digitVal '4' + 2000
       else 10 * digitVal '2' + digitVal '4' + 1900) * 100 +
        (10 * digitVal '0' + digitVal '1') :=
  ⟨by decide, (C7_contract_month_order [ 'R', 'B' ] '2' '4' '0' '1' (by decide) (by decide)
      (by decide) (by decide) [ 'A', 'B' ] (by decide) []).1⟩

/-- Claim C4: on numeric total changes, PowerChange returns 看多 (Long)
with strength |Δlong|+|Δshort| when Δlong > 0 and Δshort < 0, 看空 (Short)
with the same strength when Δlong < 0 and Δshort > 0, otherwise 中性
(Neutral) with strength 0; in particular Δlong=500, Δshort=-300 gives
看多 with strength 800. -/
theorem C4_power_change (d : AnalysisData) (l s : ℚ) :
    analyze_power_change { d with total_long_chg := some l, total_short_chg := some s } =
      (if 0 < l ∧ s < 0 then ("看多", |l| + |s|)
       else if l < 0 ∧ 0 < s then ("看空", |l| + |s|)
       else ("中性", 0)) ∧
    analyze_power_change power_example = ("看多", 800) := by
  refine ⟨rfl, ?_⟩
  norm_num [analyze_power_change, power_example]

theorem strictly_dec_iff : ∀ l : List ℚ,
    strictly_dec l = true ↔ l.Chain' (fun x y => y < x)
  | [] => by simp [strictly_dec]
  | [a] => by simp [strictly_dec]
  | a :: b :: t => by
    simp [strictly_dec, strictly_dec_iff (b :: t), List.chain'_cons, and_comm]

theorem strictly_inc_iff : ∀ l : List ℚ,
    strictly_inc l = true ↔ l.Chain' (fun x y => x < y)
  | [] => by simp [strictly_inc]
  | [a] => by simp [strictly_inc]
  | a :: b :: t => by
    simp [strictly_inc, strictly_inc_iff (b :: t), List.chain'_cons, and_comm]

theorem dec_inc_absurd {a b : ℚ} {t : List ℚ} (hd : strictly_dec (a :: b :: t) = true)
    (hi : strictly_inc (a :: b :: t) = true) : False := by
  simp [strictly_dec] at hd
  simp [strictly_inc] at hi
  exact absurd hi.1 (lt_asymm hd.1)

/-- Claim C6: for at least two close prices (near to far), classification
is "back" iff strictly decreasing, "contango" iff strictly increasing, and
"flat" in every other case (ties included); with the three spec examples. -/
theorem C6_term_structure (a b : ℚ) (rest : List ℚ) :
    (determine_structure_strict (a :: b :: rest) = "back" ↔
      (a :: b :: rest).Chain' (fun x y => y < x)) ∧
    (determine_structure_strict (a :: b :: rest) = "contango" ↔
      (a :: b :: rest).Chain' (fun x y => x < y)) ∧
    (determine_structure_strict (a :: b :: rest) = "flat" ↔
      (¬ (a :: b :: rest).Chain' (fun x y => y < x) ∧
       ¬ (a :: b :: rest).Chain' (fun x y => x < y))) ∧
    determine_structure_strict [100, 95, 90] = "back" ∧
    determine_structure_strict [90, 95, 100] = "contango" ∧
    determine_structure_strict [100, 100, 90] = "flat" := by
  have hlen : ¬ (a :: b :: rest).length < 2 := by simp
  have key : determine_structure_strict (a :: b :: rest) =
      (if strictly_dec (a :: b :: rest) then "back"
       else if strictly_inc (a :: b :: rest) then "contango" else "flat") := by
    simp [determine_structure_strict, hlen]
  have hdec := strictly_dec_iff (a :: b :: rest)
  have hinc := strictly_inc_iff (a :: b :: rest)
  refine ⟨?_, ?_, ?_, by decide, by decide, by decide⟩ <;> rw [key]
  · by_cases hd : strictly_dec (a :: b :: rest) = true
    · rw [if_pos hd]
      exact iff_of_true rfl (hdec.mp hd)
    · rw [if_neg hd]
      split <;> exact iff_of_false (by decide) (fun hc => hd (hdec.mpr hc))
  · by_cases hd : strictly_dec (a :: b :: rest) = true
    · rw [if_pos hd]
      exact iff_of_false (by decide) (fun hc => dec_inc_absurd hd (hinc.mpr hc))
    · rw [if_neg hd]
      by_cases hi : strictly_inc (a :: b :: rest) = true
      · rw [if_pos hi]
        exact iff_of_true rfl (hinc.mp hi)
      · rw [if_neg hi]
        exact iff_of_false (by decide) (fun hc => hi (hinc.mpr hc))
  · by_cases hd : strictly_dec (a :: b :: rest) = true
    · rw [if_pos hd]
      exact iff_of_false (by decide) (fun hc => hc.1 (hdec.mp hd))
    · rw [if_neg hd]
      by_cases hi : strictly_inc (a :: b :: rest) = true
      · rw [if_pos hi]
        exact iff_of_false (by decide) (fun hc => hc.2 (hinc.mp hi))
      · rw [if_neg hi]
        exact iff_of_true rfl ⟨fun hc => hd (hdec.mpr hc), fun hc => hi (hinc.mpr hc)⟩

theorem fetch_foldl {D : Type} (sources : List (SourceOutcome D)) (m k : ℕ) :
    sources.foldl
        (fun acc s => (acc.1 + if source_success s then 1 else 0, acc.2 + 1)) (m, k) =
      (m + sources.countP source_success, k + sources.length) := by
  induction sources generalizing m k with
  | nil => simp
  | cons s t ih =>
    rw [List.foldl_cons, ih, List.countP_cons, List.length_cons]
    by_cases h : source_success s = true <;> simp [h] <;> omega

theorem fetch_position_data_eq {D : Type} (sources : List (SourceOutcome D)) :
    fetch_position_data sources = (sources.countP source_success, sources.length) := by
  rw [fetch_position_data, fetch_foldl]
  simp

/-- Claim C3: position acquisition reports success iff at least one source
produced and persisted data; every configured source is attempted no matter
how the others fail; and the orchestrator returns no result exactly when the
success count is zero, otherwise all later stages run on the available
data. -/
theorem C3_acquisition_gate {D : Type} (sources : List (SourceOutcome D)) (ws : List String)
    (position_data : List (List Char × DataFrame)) (price_data : List PriceRow) :
    ((fetch_position_data sources).1 ≠ 0 ↔ ∃ s ∈ sources, source_success s = true) ∧
    (fetch_position_data sources).2 = sources.length ∧
    full_analysis ws sources position_data price_data =
      (if (fetch_position_data sources).1 = 0 then none
       else some { position_analysis := analyze_positions ws position_data,
                   term_structure := if price_data = [] then []
                                     else analyze_term_structure price_data,
                   summary := generate_summary (analyze_positions ws position_data) }) := by
  refine ⟨?_, ?_, rfl⟩
  · rw [fetch_position_data_eq]
    simp [← Nat.pos_iff_ne_zero, List.countP_pos_iff]
  · rw [fetch_position_data_eq]

/-- Claim C9: after put(k,v) an immediate get(k) returns v (for a positive
ttl); get returns absent when the entry is missing or its age reaches the
ttl; get leaves the store untouched; removal happens only through the
explicit eviction operation, which drops exactly the entries older than the
cutoff. -/
theorem C9_cache (V : Type) (s : CacheState V) (now t ttl maxAge : ℚ) (k : String) (v : V)
    (httl : 0 < ttl) :
    (load_from_cache (save_to_cache s now k v) now k ttl).1 = some v ∧
    (load_from_cache (save_to_cache s now k v) now k ttl).2 = save_to_cache s now k v ∧
    (s.entries.lookup k = none → (load_from_cache s t k ttl).1 = none) ∧
    (∀ e, s.entries.lookup k = some e → ttl ≤ t - e.writeTime →
      (load_from_cache s t k ttl).1 = none) ∧
    (load_from_cache s t k ttl).2 = s ∧
    (clear_old_cache s t maxAge).entries =
      s.entries.filter (fun p => !(decide (p.2.writeTime < t - maxAge))) := by
  refine ⟨?_, rfl, ?_, ?_, rfl, rfl⟩
  · simp [load_from_cache, is_cache_valid, save_to_cache, List.lookup, sub_self, httl]
  · intro h
    simp [load_from_cache, is_cache_valid, h]
  · intro e he hexp
    simp [load_from_cache, is_cache_valid, he, not_lt.mpr hexp]

/-- Witness for C9: round trip on an empty store with ttl 1. -/
theorem C9_cache_witness :
    (0 : ℚ) < 1 ∧
    (load_from_cache (save_to_cache (⟨[]⟩ : CacheState ℕ) 0 "k" 7) 0 "k" 1).1 = some 7 :=
  ⟨by norm_num, (C9_cache ℕ ⟨[]⟩ 0 0 1 0 "k" 7 (by norm_num)).1⟩

/-- Claim C10: a table lacking one of the seven required canonical columns
after standardization yields no processed data, and the orchestrator
silently omits that contract from the position-analysis results. -/
theorem C10_missing_columns (df : DataFrame)
    (h : ∃ c ∈ required_columns, c ∉ (standardize_columns df).columns)
    (name : List Char) (ws : List String) (rest : List (List Char × DataFrame)) :
    process_position_data df = none ∧
    analyze_positions ws ((name, df) :: rest) = analyze_positions ws rest := by
  have hp : process_position_data df = none := by
    obtain ⟨c, hcmem, hcabs⟩ := h
    rw [process_position_data]
    rw [if_neg]
    intro hall
    exact hcabs (by simpa using List.all_eq_true.mp hall c hcmem)
  refine ⟨hp, ?_⟩
  simp [analyze_positions, hp]

/-- Witness for C10 at a table missing the vol column. -/
theorem C10_missing_columns_witness :
    (∃ c ∈ required_columns, c ∉ (standardize_columns c10_df).columns) ∧
    process_position_data c10_df = none :=
  ⟨by decide, (C10_missing_columns c10_df (by decide) [] [] []).1⟩

/-- Claim C1, evidence of the divergence: two top-10 long signals of one
single strategy, on two contracts of the same variety, already make the
symbol RB a long resonance entry with count 2 — the code counts top-10
signal occurrences per symbol, not distinct contributing strategies as the
claim (and the code's own comment) states. -/
theorem C1_resonance_single_strategy :
    (calculate_signal_resonance c1_signals).1 =
      [([ 'R', 'B' ],
        { count := 2,
          strategies := ["多空力量变化策略", "多空力量变化策略"],
          contracts := ["DCE_RB2401".toList, "DCE_RB2405".toList] })] ∧
    (calculate_signal_resonance c1_signals).2 = [] := by
  constructor <;> rfl

/-- Claim C2 (amended: floor instead of ceil): for a snapshot whose
spider-web-qualifying records number n with n ≥ 5, the strategy sorts them
by (long+short)/volume descending and takes as the informed group exactly
the first max(2, ⌊0.4*n⌋) records (`int(n * 0.4)` truncates), the remaining
records forming the uninformed group. -/
theorem C2_spider_informed_split (df : List PositionRecord)
    (h5 : 5 ≤ (df.filter is_valid_seat).length) :
    (spider_split (df.filter is_valid_seat)).1 =
      ((df.filter is_valid_seat).insertionSort statGE).take
        (max 2 (2 * (df.filter is_valid_seat).length / 5)) ∧
    (spider_split (df.filter is_valid_seat)).2 =
      ((df.filter is_valid_seat).insertionSort statGE).drop
        (max 2 (2 * (df.filter is_valid_seat).length / 5)) ∧
    (spider_split (df.filter is_valid_seat)).1.length =
      max 2 (2 * (df.filter is_valid_seat).length / 5) ∧
    (spider_split (df.filter is_valid_seat)).2.length =
      (df.filter is_valid_seat).length - max 2 (2 * (df.filter is_valid_seat).length / 5) ∧
    ((spider_split (df.filter is_valid_seat)).1 ++
      (spider_split (df.filter is_valid_seat)).2).Perm (df.filter is_valid_seat) ∧
    ((spider_split (df.filter is_valid_seat)).1 ++
      (spider_split (df.filter is_valid_seat)).2).Sorted statGE := by
  set valid := df.filter is_valid_seat with hv
  have hsortlen : (valid.insertionSort statGE).length = valid.length :=
    (List.perm_insertionSort statGE valid).length_eq
  refine ⟨rfl, rfl, ?_, ?_, ?_, ?_⟩
  · simp only [spider_split, cutoff_index, List.length_take, hsortlen]
    omega
  · simp only [spider_split, cutoff_index, List.length_drop, hsortlen]
  · rw [spider_split]
    simp only [cutoff_index, List.take_append_drop]
    exact List.perm_insertionSort statGE valid
  · rw [spider_split]
    simp only [cutoff_index, List.take_append_drop]
    exact List.sorted_insertionSort statGE valid

/-- Witness for C2 on a snapshot with six qualifying records. -/
theorem C2_spider_informed_split_witness :
    5 ≤ (c2_df.filter is_valid_seat).length ∧
    (spider_split (c2_df.filter is_valid_seat)).1.length =
      max 2 (2 * (c2_df.filter is_valid_seat).length / 5) :=
  ⟨by decide, (C2_spider_informed_split c2_df (by decide)).2.2.1⟩


theorem c2_filter_eq : c2_df.filter is_valid_seat = c2_df := by rfl

theorem c2_sort_eq : (c2_df.filter is_valid_seat).insertionSort statGE = c2_df := by
  rw [c2_filter_eq]
  norm_num [List.insertionSort, List.orderedInsert, statGE, stat, c2_df]

theorem c2_informed_len : (spider_split (c2_df.filter is_valid_seat)).1.length = 2 := by
  rw [spider_split, c2_sort_eq, c2_filter_eq]
  rfl

/-- Counterexample to claim C2 as stated: with n = 6 qualifying records
the informed group has max(2, ⌊0.4*6⌋) = 2 records, not
max(2, ⌈0.4*6⌉) = 3 as the claimed ceil formula requires. -/
theorem C2_ceil_counterexample :
    ¬ ((spider_split (c2_df.filter is_valid_seat)).1.length =
        max 2 (Nat.ceil ((2 / 5 : ℚ) * (c2_df.filter is_valid_seat).length))) := by
  have hlen : (c2_df.filter is_valid_seat).length = 6 := by rw [c2_filter_eq]; rfl
  have hceil : Nat.ceil ((2 / 5 : ℚ) * (c2_df.filter is_valid_seat).length) = 3 := by
    rw [hlen]
    rw [show ((2 / 5 : ℚ) * (6 : ℕ)) = 12 / 5 by norm_num]
    rw [Nat.ceil_eq_iff (by norm_num)]
    norm_num
  rw [hceil, c2_informed_len]
  decide

/-- Claim C8: each of the three strategy functions is total (by
construction of the embedding, mirroring the Python try/except wrappers) and
always returns one of exactly the four direction values 看多, 看空, 中性,
错误, for every input including malformed or missing fields. -/
theorem C8_direction_enum (d : AnalysisData) (ws : List String) :
    (analyze_power_change d).1 ∈ ["看多", "看空", "中性", "错误"] ∧
    (analyze_spider_web d).1 ∈ ["看多", "看空", "中性", "错误"] ∧
    (analyze_retail_reverse ws d).1 ∈ ["看多", "看空", "中性", "错误"] := by
  obtain ⟨tl, ts, tlc, tsc, rd⟩ := d
  refine ⟨?_, ?_, ?_⟩
  · cases tlc <;> cases tsc <;> simp only [analyze_power_change] <;> (repeat' split) <;> simp
  · cases rd <;> simp only [analyze_spider_web] <;> (repeat' split) <;> simp
  · cases rd <;> simp only [analyze_retail_reverse] <;> (repeat' split) <;> simp

theorem seat_stat_long_pos_nonneg {df : List PositionRecord}
    (hnn : ∀ r ∈ df, 0 ≤ r.long_open_interest.getD 0 ∧ 0 ≤ r.short_open_interest.getD 0)
    (seat : String) : 0 ≤ (seat_stat df seat).long_pos := by
  apply List.sum_nonneg
  intro x hx
  simp only [List.mem_map] at hx
  obtain ⟨r, hr, rfl⟩ := hx
  split
  · exact (hnn r hr).1
  · exact le_refl 0

theorem seat_stat_short_pos_nonneg {df : List PositionRecord}
    (hnn : ∀ r ∈ df, 0 ≤ r.long_open_interest.getD 0 ∧ 0 ≤ r.short_open_interest.getD 0)
    (seat : String) : 0 ≤ (seat_stat df seat).short_pos := by
  apply List.sum_nonneg
  intro x hx
  simp only [List.mem_map] at hx
  obtain ⟨r, hr, rfl⟩ := hx
  split
  · exact (hnn r hr).2
  · exact le_refl 0

theorem snapshot_sum_nonneg {df : List PositionRecord}
    (hnn : ∀ r ∈ df, 0 ≤ r.long_open_interest.getD 0 ∧ 0 ≤ r.short_open_interest.getD 0) :
    0 ≤ snapshot_position_sum df := by
  apply add_nonneg <;>
  · apply List.sum_nonneg
    intro x hx
    simp only [List.mem_map] at hx
    obtain ⟨r, hr, rfl⟩ := hx
    first
      | exact (hnn r hr).1
      | exact (hnn r hr).2

theorem active_seats_eq_nonzero {ws : List String} {df : List PositionRecord}
    (hnn : ∀ r ∈ df, 0 ≤ r.long_open_interest.getD 0 ∧ 0 ≤ r.short_open_interest.getD 0) :
    active_seats ws df =
      ((uniqueKeys ws).map (seat_stat df)).filter
        (fun s => !(decide (s.long_pos = 0) && decide (s.short_pos = 0))) := by
  unfold active_seats
  apply List.filter_congr
  intro s hs
  simp only [List.mem_map] at hs
  obtain ⟨seat, hseat, rfl⟩ := hs
  have h1 := seat_stat_long_pos_nonneg hnn seat
  have h2 := seat_stat_short_pos_nonneg hnn seat
  rcases h1.lt_or_eq with hl | hl <;> rcases h2.lt_or_eq with hs2 | hs2
  · simp [hl, hs2, hl.ne', hs2.ne']
  · simp [hl, hl.ne', ← hs2]
  · simp [hs2, hs2.ne', ← hl]
  · simp [← hl, ← hs2]

theorem sum_filter_active (l : List SeatStat)
    (h : ∀ s ∈ l, (decide (0 < s.long_pos) || decide (0 < s.short_pos)) = false →
      s.long_pos + s.short_pos = 0) :
    ((l.filter (fun s => decide (0 < s.long_pos) || decide (0 < s.short_pos))).map
        (fun s => s.long_pos + s.short_pos)).sum =
      (l.map (fun s => s.long_pos + s.short_pos)).sum := by
  induction l with
  | nil => rfl
  | cons s t ih =>
    have iht := ih (fun x hx hfx => h x (List.mem_cons_of_mem s hx) hfx)
    rw [List.filter_cons]
    by_cases hs : (decide (0 < s.long_pos) || decide (0 < s.short_pos)) = true
    · rw [if_pos hs]
      simp only [List.map_cons, List.sum_cons, iht]
    · rw [if_neg hs, List.map_cons, List.sum_cons, iht,
        h s (List.mem_cons_self s t) (by simpa using hs), zero_add]

theorem active_sum_eq {ws : List String} {df : List PositionRecord}
    (hnn : ∀ r ∈ df, 0 ≤ r.long_open_interest.getD 0 ∧ 0 ≤ r.short_open_interest.getD 0) :
    ((active_seats ws df).map (fun s => s.long_pos + s.short_pos)).sum =
      watched_position_sum ws df := by
  unfold active_seats watched_position_sum
  apply sum_filter_active
  intro s hs hfalse
  simp only [List.mem_map] at hs
  obtain ⟨seat, hseat, rfl⟩ := hs
  have h1 := seat_stat_long_pos_nonneg hnn seat
  have h2 := seat_stat_short_pos_nonneg hnn seat
  simp only [Bool.or_eq_false_iff, decide_eq_false_iff_not, not_lt] at hfalse
  have e1 : (seat_stat df seat).long_pos = 0 := le_antisymm hfalse.1 h1
  have e2 : (seat_stat df seat).short_pos = 0 := le_antisymm hfalse.2 h2
  rw [e1, e2, add_zero]

theorem long_condition_iff (s : SeatStat) :
    long_condition s = true ↔ (0 < s.short_chg ∧ s.long_chg ≤ 0) := by
  simp [long_condition]

theorem short_condition_iff (s : SeatStat) :
    short_condition s = true ↔ (0 < s.long_chg ∧ s.short_chg ≤ 0) := by
  simp [short_condition]

theorem retail_reverse_unfold (ws : List String) (df : List PositionRecord) (d : AnalysisData) :
    analyze_retail_reverse ws { d with raw_data := some df } =
      (if active_seats ws df = [] then ("中性", 0, ([] : List SeatStat))
       else if (active_seats ws df).all long_condition then
        ("看多",
         if 0 < snapshot_position_sum df
         then ((active_seats ws df).map (fun s => s.long_pos + s.short_pos)).sum /
              snapshot_position_sum df
         else 0, active_seats ws df)
       else if (active_seats ws df).all short_condition then
        ("看空",
         if 0 < snapshot_position_sum df
         then ((active_seats ws df).map (fun s => s.long_pos + s.short_pos)).sum /
              snapshot_position_sum df
         else 0, active_seats ws df)
       else ("中性", 0, active_seats ws df)) := rfl

/-- Claim C5: on a snapshot with nonnegative open-interest cells,
RetailReverse keeps exactly the watched seats with a nonzero aggregated long
or short position; returns 中性 when none remain; returns 看多 exactly when
some seat remains and every remaining seat has Δshort > 0 and Δlong ≤ 0;
returns 看空 exactly when some seat remains and every remaining seat has
Δlong > 0 and Δshort ≤ 0; 中性 otherwise; and for a 看多/看空 signal the
strength is (sum of watched-seat long+short positions) / (sum of all
long+short positions), 0 when that denominator is 0. -/
theorem C5_retail_reverse (ws : List String) (df : List PositionRecord) (d : AnalysisData)
    (hnn : ∀ r ∈ df, 0 ≤ r.long_open_interest.getD 0 ∧ 0 ≤ r.short_open_interest.getD 0) :
    active_seats ws df =
      ((uniqueKeys ws).map (seat_stat df)).filter
        (fun s => !(decide (s.long_pos = 0) && decide (s.short_pos = 0))) ∧
    (active_seats ws df = [] →
      analyze_retail_reverse ws { d with raw_data := some df } = ("中性", 0, [])) ∧
    ((analyze_retail_reverse ws { d with raw_data := some df }).1 = "看多" ↔
      (active_seats ws df ≠ [] ∧
        ∀ s ∈ active_seats ws df, 0 < s.short_chg ∧ s.long_chg ≤ 0)) ∧
    ((analyze_retail_reverse ws { d with raw_data := some df }).1 = "看空" ↔
      (active_seats ws df ≠ [] ∧
        ∀ s ∈ active_seats ws df, 0 < s.long_chg ∧ s.short_chg ≤ 0)) ∧
    ((analyze_retail_reverse ws { d with raw_data := some df }).1 = "中性" ↔
      (active_seats ws df = [] ∨
        ((¬ ∀ s ∈ active_seats ws df, 0 < s.short_chg ∧ s.long_chg ≤ 0) ∧
         (¬ ∀ s ∈ active_seats ws df, 0 < s.long_chg ∧ s.short_chg ≤ 0)))) ∧
    (((analyze_retail_reverse ws { d with raw_data := some df }).1 = "看多" ∨
      (analyze_retail_reverse ws { d with raw_data := some df }).1 = "看空") →
      (analyze_retail_reverse ws { d with raw_data := some df }).2.1 =
        (if snapshot_position_sum df = 0 then 0
         else watched_position_sum ws df / snapshot_position_sum df)) := by
  have hT0 : 0 ≤ snapshot_position_sum df := snapshot_sum_nonneg hnn
  have hR := @active_sum_eq ws df hnn
  have hall_long : ∀ a : List SeatStat, a.all long_condition = true ↔
      ∀ s ∈ a, 0 < s.short_chg ∧ s.long_chg ≤ 0 := by
    intro a
    rw [List.all_eq_true]
    exact forall_congr' (fun s => forall_congr' (fun _ => long_condition_iff s))
  have hall_short : ∀ a : List SeatStat, a.all short_condition = true ↔
      ∀ s ∈ a, 0 < s.long_chg ∧ s.short_chg ≤ 0 := by
    intro a
    rw [List.all_eq_true]
    exact forall_congr' (fun s => forall_congr' (fun _ => short_condition_iff s))
  rw [retail_reverse_unfold ws df d]
  refine ⟨active_seats_eq_nonzero hnn, ?_, ?_, ?_, ?_, ?_⟩
  · intro hA
    rw [if_pos hA]
  · by_cases hA : active_seats ws df = []
    · rw [if_pos hA]
      exact iff_of_false (by simp) (fun hc => hc.1 hA)
    · rw [if_neg hA]
      by_cases hL : (active_seats ws df).all long_condition = true
      · rw [if_pos hL]
        exact iff_of_true rfl ⟨hA, (hall_long _).mp hL⟩
      · rw [if_neg hL]
        have hno : ¬ (active_seats ws df ≠ [] ∧
            ∀ s ∈ active_seats ws df, 0 < s.short_chg ∧ s.long_chg ≤ 0) :=
          fun hc => hL ((hall_long _).mpr hc.2)
        by_cases hS : (active_seats ws df).all short_condition = true
        · rw [if_pos hS]
          exact iff_of_false (by simp) hno
        · rw [if_neg hS]
          exact iff_of_false (by simp) hno
  · by_cases hA : active_seats ws df = []
    · rw [if_pos hA]
      exact iff_of_false (by simp) (fun hc => hc.1 hA)
    · rw [if_neg hA]
      by_cases hL : (active_seats ws df).all long_condition = true
      · rw [if_pos hL]
        refine iff_of_false (by simp) (fun hc => ?_)
        obtain ⟨s, hs⟩ := List.exists_mem_of_ne_nil _ hA
        have h1 := ((hall_long _).mp hL) s hs
        have h2 := hc.2 s hs
        exact absurd h2.1 (not_lt.mpr h1.2)
      · rw [if_neg hL]
        by_cases hS : (active_seats ws df).all short_condition = true
        · rw [if_pos hS]
          exact iff_of_true rfl ⟨hA, (hall_short _).mp hS⟩
        · rw [if_neg hS]
          exact iff_of_false (by simp) (fun hc => hS ((hall_short _).mpr hc.2))
  · by_cases hA : active_seats ws df = []
    · rw [if_pos hA]
      exact iff_of_true rfl (Or.inl hA)
    · rw [if_neg hA]
      by_cases hL : (active_seats ws df).all long_condition = true
      · rw [if_pos hL]
        exact iff_of_false (by simp)
          (fun hc => hc.elim hA (fun h2 => h2.1 ((hall_long _).mp hL)))
      · rw [if_neg hL]
        by_cases hS : (active_seats ws df).all short_condition = true
        · rw [if_pos hS]
          exact iff_of_false (by simp)
            (fun hc => hc.elim hA (fun h2 => h2.2 ((hall_short _).mp hS)))
        · rw [if_neg hS]
          exact iff_of_true rfl
            (Or.inr ⟨fun hc => hL ((hall_long _).mpr hc), fun hc => hS ((hall_short _).mpr hc)⟩)
  · by_cases hA : active_seats ws df = []
    · rw [if_pos hA]
      intro hdir
      exact absurd hdir (by simp)
    · rw [if_neg hA]
      have hratio : (if 0 < snapshot_position_sum df
            then ((active_seats ws df).map (fun s => s.long_pos + s.short_pos)).sum /
              snapshot_position_sum df
            else 0) =
          (if snapshot_position_sum df = 0 then 0
           else watched_position_sum ws df / snapshot_position_sum df) := by
        rcases hT0.lt_or_eq with hT | hT
        · rw [if_pos hT, if_neg hT.ne', hR]
        · rw [if_neg (by rw [← hT]; exact lt_irrefl 0), if_pos hT.symm]
      by_cases hL : (active_seats ws df).all long_condition = true
      · rw [if_pos hL]
        intro _
        exact hratio
      · rw [if_neg hL]
        by_cases hS : (active_seats ws df).all short_condition = true
        · rw [if_pos hS]
          intro _
          exact hratio
        · rw [if_neg hS]
          intro hdir
          exact absurd hdir (by simp)

/-- Witness for C5 at the spec example: seats A and B, A(Δshort=+200,
Δlong=0), B(Δshort=+150, Δlong=-50). -/
theorem C5_retail_reverse_witness :
    (∀ r ∈ c5_df, 0 ≤ r.long_open_interest.getD 0 ∧ 0 ≤ r.short_open_interest.getD 0) ∧
    ((analyze_retail_reverse ["A", "B"] { c5_blank with raw_data := some c5_df }).1 = "看多" ↔
      (active_seats ["A", "B"] c5_df ≠ [] ∧
        ∀ s ∈ active_seats ["A", "B"] c5_df, 0 < s.short_chg ∧ s.long_chg ≤ 0)) :=
  ⟨by decide, (C5_retail_reverse ["A", "B"] c5_df c5_blank (by decide)).2.2.1⟩

end Futures
